import Mathlib

/-!
Shallow embedding of the Datathon-Frontend client (TypeScript/React) upload
and leaderboard flows, translated from
`src/src/pages/UploadSubmission.tsx` and `src/src/pages/Leaderboard.tsx`.

JavaScript strings are modelled as Lean `String`; JS `String.prototype.includes`
(substring test), `endsWith`, `toLowerCase`, `split`, and `Array.prototype.join`
are given explicit executable counterparts below. JS numbers appearing in the
claims are modelled as `Rat` (for accuracies and progress arithmetic), `Nat`
(byte counts, HTTP status codes) and `Int` (values of `Math.round`).
`Date.prototype.toLocaleTimeString` is locale dependent and is abstracted as a
function parameter. React state setters become explicit state passing; toast
notifications become an explicit list of emitted toast events.
-/

/-- Character-list test mirroring a prefix comparison: the JS engine primitive
underlying `String.prototype.includes` and `endsWith`. -/
def charsStartWith : List Char → List Char → Bool
  | [], _ => true
  | _ :: _, [] => false
  | p :: ps, c :: cs => p == c && charsStartWith ps cs

/-- Substring occurrence test on character lists. -/
def charsContain (pat : List Char) : List Char → Bool
  | [] => charsStartWith pat []
  | c :: cs => charsStartWith pat (c :: cs) || charsContain pat cs

/-- JS `s.includes(pat)`: substring containment. -/
def strIncludes (s pat : String) : Bool :=
  charsContain pat.data s.data

/-- JS `s.endsWith(suffix)`. -/
def strEndsWith (s sfx : String) : Bool :=
  charsStartWith sfx.data.reverse s.data.reverse

/-- JS `s.toLowerCase()`, as a character-by-character map (the headers the
code lowercases are ASCII, where `Char.toLower` agrees with JS). -/
def strToLower (s : String) : String :=
  String.mk (s.data.map Char.toLower)

/-- Splitting a character list at every occurrence of a separator character;
a trailing separator yields a trailing empty piece and the empty list yields
one empty piece, exactly like JS `split`. -/
def splitOnChar (sep : Char) : List Char → List (List Char)
  | [] => [[]]
  | c :: cs =>
    if c == sep then
      [] :: splitOnChar sep cs
    else
      match splitOnChar sep cs with
      | [] => [[c]]
      | h :: t => (c :: h) :: t

/-- JS `s.split(sep)` for a one-character separator. -/
def jsSplit (s : String) (sep : Char) : List String :=
  (splitOnChar sep s.data).map String.mk

/-- A browser `File` object: the fields read by `UploadSubmission.tsx`
(`file.name`, `file.type`, `file.size`) plus the text content delivered by
`FileReader.readAsText`. -/
structure JsFile where
  name : String
  type : String
  size : Nat
  content : String
deriving Repr, DecidableEq

/-- A `react-hot-toast` notification event: `toast.error` or `toast.success`. -/
inductive Toast where
  | error (msg : String)
  | success (msg : String)
deriving Repr, DecidableEq

/-- The `/upload` success body (`SubmissionResult` interface in
`UploadSubmission.tsx`); only the fields the claims mention are kept,
accuracies as rationals. -/
structure SubmissionResult where
  item_accuracy : Rat
  brand_accuracy : Option Rat
  timestamp : String
  submissionsRemaining : Int
deriving Repr, DecidableEq

/-- The component state of `UploadSubmission` relevant to the claims:
`file`, `csvPreview` and `result` (React `useState` hooks). -/
structure UploadState where
  file : Option JsFile
  csvPreview : List String
  result : Option SubmissionResult
deriving Repr, DecidableEq

/-- The initial `UploadSubmission` state: `useState<File | null>(null)`,
`useState<string[]>([])`, `useState<SubmissionResult | null>(null)`. -/
def initialUploadState : UploadState :=
  { file := none, csvPreview := [], result := none }

/-- `requiredColumns` from `validateAndSetFile` (line 105 of
`UploadSubmission.tsx`). -/
def requiredColumns : List String :=
  ["details_brand", "l0_category", "l1_category", "l2_category", "l3_category", "l4_category"]

/-- The 5 MiB limit `5 * 1024 * 1024` (line 84). -/
def maxFileSize : Nat := 5 * 1024 * 1024

/-- `validateAndSetFile` (lines 76-117 of `UploadSubmission.tsx`), returning
the toasts emitted together with the state after both the synchronous tail
(`setFile(file); setResult(null)`) and the `FileReader` `onload` callback
(`setCsvPreview(rows)` plus the header checks) have run. On rejection by the
extension or size check the function returns early and the state is untouched.
Note that `setFile(file)` runs unconditionally once those two checks pass: the
header checks only emit toasts. -/
def validateAndSetFile (s : UploadState) (f : JsFile) : List Toast × UploadState :=
  if !strEndsWith f.name ".csv" && f.type != "text/csv" then
    ([Toast.error "Only CSV files are allowed"], s)
  else if f.size > maxFileSize then
    ([Toast.error "File size exceeds 5MB limit"], s)
  else
    let rows := (jsSplit f.content '\n').take 5
    let toasts :=
      if rows.length > 0 then
        let headers := strToLower (rows.headD "")
        if !strIncludes headers "walmart_id" then
          [Toast.error "CSV must contain a column named \"walmart_id\""]
        else
          let missingColumns := requiredColumns.filter (fun col => !strIncludes headers col)
          if missingColumns.length > 0 then
            [Toast.error ("CSV is missing required columns: " ++ String.intercalate ", " missingColumns)]
          else []
      else []
    (toasts, { s with file := some f, csvPreview := rows, result := none })

/-- The error body of a failed `/upload` response: the optional `error` and
`nextReset` fields read by the catch branch of `handleUpload`. -/
structure ErrorBody where
  error : Option String
  nextReset : Option String
deriving Repr, DecidableEq

/-- Outcome of an `/upload` POST: success with a result body, or failure with
an HTTP status and error body. -/
inductive UploadResponse where
  | success (r : SubmissionResult)
  | failure (status : Nat) (body : ErrorBody)
deriving Repr, DecidableEq

/-- What one call of `handleUpload` did: which files were POSTed to `/upload`,
which toasts were emitted, and the resulting state. -/
structure UploadOutcome where
  posted : List JsFile
  toasts : List Toast
  state : UploadState
deriving Repr, DecidableEq

/-- `handleUpload` (lines 119-168 of `UploadSubmission.tsx`). `localize`
abstracts `(ts) => new Date(ts).toLocaleTimeString()`. With no pending file
it toasts an error and returns without a network call. Otherwise it POSTs the
pending file exactly once; on success it stores the result
(`setResult(response.data)`); in the catch branch, HTTP 429 produces the
rate-limit toast, using the localized `nextReset` if that field is truthy
(a nonempty string) and the literal `tomorrow` otherwise, and any other
failure surfaces the truthy `error` field or the generic fallback. No branch
clears `file` or `csvPreview`, and no branch re-issues the request. -/
def handleUpload (localize : String → String) (s : UploadState)
    (resp : UploadResponse) : UploadOutcome :=
  match s.file with
  | none =>
    { posted := [], toasts := [Toast.error "Please select a file to upload"], state := s }
  | some f =>
    match resp with
    | UploadResponse.success r =>
      { posted := [f]
        toasts := [Toast.success "File uploaded successfully!"]
        state := { s with result := some r } }
    | UploadResponse.failure status body =>
      if status = 429 then
        let nextReset :=
          match body.nextReset with
          | some ts => if ts ≠ "" then localize ts else "tomorrow"
          | none => "tomorrow"
        { posted := [f]
          toasts := [Toast.error ("Daily upload limit exceeded. Limit resets at " ++ nextReset)]
          state := s }
      else
        let errorMessage :=
          match body.error with
          | some e => if e ≠ "" then e else "Upload failed. Please check file format and try again."
          | none => "Upload failed. Please check file format and try again."
        { posted := [f], toasts := [Toast.error errorMessage], state := s }

/-- `handleRemoveFile` (lines 170-177): clears the file, the preview and the
result (the file-input DOM reset is outside the model). -/
def handleRemoveFile (s : UploadState) : UploadState :=
  { s with file := none, csvPreview := [], result := none }

/-- JS `Math.round`: the closest integer, ties rounding toward positive
infinity, which is the floor of the argument plus one half. -/
def jsRound (q : Rat) : Int :=
  ⌊q + 1/2⌋

/-- Two-digit zero padding of the fractional part for `toFixed(2)`. -/
def pad2 (n : Nat) : String :=
  if n < 10 then "0" ++ toString n else toString n

/-- JS `x.toFixed(2)` for a nonnegative argument: the integer closest to
`x * 100` (ties toward the larger), printed with two digits after the
decimal point. -/
def toFixed2abs (q : Rat) : String :=
  let n := (jsRound (q * 100)).toNat
  toString (n / 100) ++ "." ++ pad2 (n % 100)

/-- JS `x.toFixed(2)`: sign handling around `toFixed2abs`. -/
def toFixed2 (q : Rat) : String :=
  if q < 0 then "-" ++ toFixed2abs (-q) else toFixed2abs q

/-- The accuracy cell rendering `(value * 100).toFixed(2)` followed by a
percent sign (line 288 of `UploadSubmission.tsx`). -/
def renderedItemAccuracy (r : SubmissionResult) : String :=
  toFixed2 (r.item_accuracy * 100) ++ "%"

/-- The rendering of `result.submissionsRemaining` (line 344): a JS number
interpolated into text. -/
def renderedSubmissionsRemaining (r : SubmissionResult) : String :=
  toString r.submissionsRemaining

/-- An axios upload progress event: `loaded` bytes sent, and the optional
`total` (`number | undefined`). -/
structure ProgressEvent where
  loaded : Nat
  total : Option Nat
deriving Repr, DecidableEq

/-- The `onUploadProgress` callback (lines 137-142 of
`UploadSubmission.tsx`): when `progressEvent.total` is truthy (present and
nonzero) the displayed progress becomes
`Math.round((progressEvent.loaded * 100) / progressEvent.total)`; otherwise
the previous value is kept. -/
def stepProgress (p : Int) (ev : ProgressEvent) : Int :=
  match ev.total with
  | some t => if t ≠ 0 then jsRound ((ev.loaded * 100 : Rat) / (t : Rat)) else p
  | none => p

/-- The displayed progress after a sequence of progress events, starting
from the `setUploadProgress(0)` that `handleUpload` performs on submit
(line 126). -/
def runProgress (evs : List ProgressEvent) : Int :=
  evs.foldl stepProgress 0

/-- The Leaderboard component state relevant to its refresh timer
(`Leaderboard.tsx`): whether it is mounted, the interval id registered by its
mount effect, a fresh-id counter for `setInterval`, and how many leaderboard
fetches have been fired. -/
structure LState where
  mounted : Bool
  timer : Option Nat
  nextId : Nat
  fetches : Nat
deriving Repr, DecidableEq

/-- Lifecycle events of the Leaderboard component: React mounting it,
React unmounting it, and the browser timer firing the interval with a given
id. -/
inductive LEvent where
  | mount
  | unmount
  | tick (id : Nat)
deriving Repr, DecidableEq

/-- Before the component ever mounts: no timer, no fetches. -/
def lInit : LState :=
  { mounted := false, timer := none, nextId := 0, fetches := 0 }

/-- One lifecycle step of `Leaderboard.tsx` (lines 63-77). On mount the
effect body runs: one immediate `fetchLeaderboard()` and a
`setInterval(fetchLeaderboard, 2 * 60 * 1000)` registering a fresh timer id.
On unmount the cleanup runs `clearInterval(intervalId)`, deregistering the
timer. A browser tick fires `fetchLeaderboard()` only when its id is still
registered (`clearInterval` prevents any later firing of that id). -/
def lStep (s : LState) (e : LEvent) : LState :=
  match e with
  | LEvent.mount =>
    if s.mounted then s
    else
      { mounted := true, timer := some s.nextId, nextId := s.nextId + 1,
        fetches := s.fetches + 1 }
  | LEvent.unmount =>
    if s.mounted then { s with mounted := false, timer := none } else s
  | LEvent.tick id =>
    match s.timer with
    | some tid => if id = tid then { s with fetches := s.fetches + 1 } else s
    | none => s

/-- Running a sequence of lifecycle events from a state. -/
def lRun (s : LState) (evs : List LEvent) : LState :=
  evs.foldl lStep s

/-- Whether a lifecycle event is a browser interval tick. -/
def isTick : LEvent → Bool
  | LEvent.tick _ => true
  | _ => false

/-- Whether an axios progress event is well formed in the sense of the
claims: a defined total is at least the loaded byte count. -/
def okEvent (ev : ProgressEvent) : Bool :=
  match ev.total with
  | some t => ev.loaded ≤ t
  | none => true

/-- The lowercased header row that `validateAndSetFile` inspects: the first
of the first five lines of the file text. -/
def headerOf (f : JsFile) : String :=
  strToLower (((jsSplit f.content '\n').take 5).headD "")

/-- The `missingColumns` list computed by `validateAndSetFile`: the required
columns, in order, whose names do not occur in the lowercased header. -/
def missingOf (f : JsFile) : List String :=
  requiredColumns.filter (fun col => !strIncludes (headerOf f) col)

theorem splitOnChar_ne_nil (sep : Char) (l : List Char) : splitOnChar sep l ≠ [] := by
  cases l with
  | nil => simp [splitOnChar]
  | cons c cs =>
    simp only [splitOnChar]
    split
    · simp
    · split <;> simp

theorem rows_length_pos (f : JsFile) : 0 < ((jsSplit f.content '\n').take 5).length := by
  have hnil := splitOnChar_ne_nil '\n' f.content.data
  have hlen : 0 < (jsSplit f.content '\n').length := by
    simpa [jsSplit] using List.length_pos.mpr hnil
  rw [List.length_take]
  omega

theorem validateAndSetFile_accepted (s : UploadState) (f : JsFile)
    (hcsv : strEndsWith f.name ".csv" = true ∨ f.type = "text/csv")
    (hsize : f.size ≤ maxFileSize) :
    validateAndSetFile s f =
      ((if !strIncludes (headerOf f) "walmart_id" then
          [Toast.error "CSV must contain a column named \"walmart_id\""]
        else if (missingOf f).length > 0 then
          [Toast.error ("CSV is missing required columns: " ++ String.intercalate ", " (missingOf f))]
        else []),
       { s with file := some f, csvPreview := (jsSplit f.content '\n').take 5, result := none }) := by
  have hcond : (!strEndsWith f.name ".csv" && f.type != "text/csv") = false := by
    rcases hcsv with h | h <;> simp [h]
  have hrows := rows_length_pos f
  unfold validateAndSetFile
  rw [hcond]
  simp only [Bool.false_eq_true, if_false, if_neg (by omega : ¬ f.size > maxFileSize)]
  simp only [headerOf, missingOf]
  rw [if_pos hrows]

/-- Claim C1 (counterexample): a concrete `.csv` file within the size limit
whose header row lacks `walmart_id` does get the blocking error toast, yet it
IS retained as the pending upload selection, contradicting the claim that the
file is not retained. -/
theorem walmart_missing_file_retained_cex :
    (validateAndSetFile initialUploadState ⟨"a.csv", "text/csv", 10, "id,foo\n1,2"⟩).1
        = [Toast.error "CSV must contain a column named \"walmart_id\""]
      ∧ (validateAndSetFile initialUploadState ⟨"a.csv", "text/csv", 10, "id,foo\n1,2"⟩).2.file
        = some ⟨"a.csv", "text/csv", 10, "id,foo\n1,2"⟩ := by
  decide

/-- Claim C1 (amended): for every selected file passing the extension and
size checks whose header row lacks `walmart_id` (case-insensitively), the
blocking error toast is surfaced, but the file IS retained as the pending
upload selection (`setFile(file)` runs regardless of the header checks). -/
theorem walmart_missing_error_and_retention (s : UploadState) (f : JsFile)
    (hcsv : strEndsWith f.name ".csv" = true ∨ f.type = "text/csv")
    (hsize : f.size ≤ maxFileSize)
    (hdr : strIncludes (headerOf f) "walmart_id" = false) :
    (validateAndSetFile s f).1 = [Toast.error "CSV must contain a column named \"walmart_id\""]
      ∧ (validateAndSetFile s f).2.file = some f := by
  rw [validateAndSetFile_accepted s f hcsv hsize]
  simp [hdr]

/-- Claim C1 (witness): the amended theorem applied to a concrete file. -/
theorem walmart_missing_error_and_retention_witness :
    (strEndsWith "a.csv" ".csv" = true ∨ "text/csv" = "text/csv")
      ∧ (10 : Nat) ≤ maxFileSize
      ∧ strIncludes (headerOf ⟨"a.csv", "text/csv", 10, "id,foo\n1,2"⟩) "walmart_id" = false
      ∧ ((validateAndSetFile initialUploadState ⟨"a.csv", "text/csv", 10, "id,foo\n1,2"⟩).1
            = [Toast.error "CSV must contain a column named \"walmart_id\""]
          ∧ (validateAndSetFile initialUploadState ⟨"a.csv", "text/csv", 10, "id,foo\n1,2"⟩).2.file
            = some ⟨"a.csv", "text/csv", 10, "id,foo\n1,2"⟩) :=
  ⟨by decide, by decide, by decide,
    walmart_missing_error_and_retention initialUploadState _ (by decide) (by decide) (by decide)⟩

/-- Claim C2 (counterexample): after a successful upload of a concrete valid
selection, and likewise after a failed one, the file handle is still the
pending selection, contradicting the claim that success and failure discard
it. -/
theorem upload_success_keeps_selection_cex :
    (handleUpload id
        (validateAndSetFile initialUploadState ⟨"good.csv", "text/csv", 4, "walmart_id\n1"⟩).2
        (UploadResponse.success ⟨0, none, "t", 3⟩)).state.file
      = some ⟨"good.csv", "text/csv", 4, "walmart_id\n1"⟩
    ∧ (handleUpload id
        (validateAndSetFile initialUploadState ⟨"good.csv", "text/csv", 4, "walmart_id\n1"⟩).2
        (UploadResponse.failure 500 ⟨none, none⟩)).state.file
      = some ⟨"good.csv", "text/csv", 4, "walmart_id\n1"⟩ := by
  decide

/-- Claim C2 (amended): the uploaded-file selection (file handle and preview
text) is discarded only by explicit removal: `handleRemoveFile` clears both
(and the result), while `handleUpload` leaves both unchanged on every
response, success or failure. -/
theorem selection_discarded_only_on_remove (localize : String → String)
    (s : UploadState) (resp : UploadResponse) :
    (handleRemoveFile s).file = none ∧ (handleRemoveFile s).csvPreview = []
      ∧ (handleUpload localize s resp).state.file = s.file
      ∧ (handleUpload localize s resp).state.csvPreview = s.csvPreview := by
  refine ⟨rfl, rfl, ?_, ?_⟩ <;>
  · cases hf : s.file with
    | none => simp [handleUpload, hf]
    | some f =>
      cases resp with
      | success r => simp [handleUpload, hf]
      | failure status body => by_cases h : status = 429 <;> simp [handleUpload, hf, h]

/-- Claim C3: a file whose name does not end in `.csv` and whose MIME type
is not `text/csv` is rejected with the extension error and the state is left
untouched; a file that never became the pending selection is never POSTed to
`/upload`. -/
theorem non_csv_rejected_before_network (s : UploadState) (f : JsFile)
    (hname : strEndsWith f.name ".csv" = false) (htype : f.type ≠ "text/csv") :
    validateAndSetFile s f = ([Toast.error "Only CSV files are allowed"], s)
      ∧ ∀ (localize : String → String) (resp : UploadResponse),
          s.file ≠ some f → f ∉ (handleUpload localize s resp).posted := by
  constructor
  · unfold validateAndSetFile
    have hcond : (!strEndsWith f.name ".csv" && f.type != "text/csv") = true := by
      simp [hname, htype]
    rw [hcond]
    simp
  · intro localize resp hne
    cases hf : s.file with
    | none => simp [handleUpload, hf]
    | some g =>
      have hg : f ≠ g := fun h => hne (h ▸ hf)
      cases resp with
      | success r => simpa [handleUpload, hf] using hg
      | failure status body =>
        by_cases h : status = 429 <;> simpa [handleUpload, hf, h] using hg

/-- Claim C3 (witness): the theorem applied to a concrete non-CSV file. -/
theorem non_csv_rejected_before_network_witness :
    strEndsWith "a.txt" ".csv" = false
      ∧ "text/plain" ≠ "text/csv"
      ∧ (validateAndSetFile initialUploadState ⟨"a.txt", "text/plain", 3, "x"⟩
            = ([Toast.error "Only CSV files are allowed"], initialUploadState)
          ∧ ∀ (localize : String → String) (resp : UploadResponse),
              initialUploadState.file ≠ some ⟨"a.txt", "text/plain", 3, "x"⟩ →
              ⟨"a.txt", "text/plain", 3, "x"⟩ ∉ (handleUpload localize initialUploadState resp).posted) :=
  ⟨by decide, by decide, non_csv_rejected_before_network initialUploadState _ (by decide) (by decide)⟩

/-- Claim C4 (counterexample): a concrete file over the 5 MiB limit whose
name and MIME type are not CSV is rejected with the extension error, not the
size-limit error, because the extension check runs first. -/
theorem oversize_non_csv_extension_error_cex :
    validateAndSetFile initialUploadState ⟨"data.txt", "text/plain", 5 * 1024 * 1024 + 1, ""⟩
        = ([Toast.error "Only CSV files are allowed"], initialUploadState)
      ∧ (validateAndSetFile initialUploadState ⟨"data.txt", "text/plain", 5 * 1024 * 1024 + 1, ""⟩).1
        ≠ [Toast.error "File size exceeds 5MB limit"] := by
  decide

/-- Claim C4 (amended): every file over 5 * 1024 * 1024 bytes is rejected
with the state left untouched, regardless of content; the reported error is
the size-limit message whenever the file passes the extension/MIME check
(otherwise the extension check fires first). -/
theorem oversize_rejected_size_error (s : UploadState) (f : JsFile)
    (hsize : f.size > maxFileSize) :
    (validateAndSetFile s f).2 = s
      ∧ ((strEndsWith f.name ".csv" = true ∨ f.type = "text/csv") →
          validateAndSetFile s f = ([Toast.error "File size exceeds 5MB limit"], s)) := by
  have hbranch : (!strEndsWith f.name ".csv" && f.type != "text/csv") = false →
      validateAndSetFile s f = ([Toast.error "File size exceeds 5MB limit"], s) := by
    intro hc
    unfold validateAndSetFile
    rw [hc]
    simp [if_pos hsize]
  constructor
  · by_cases hc : (!strEndsWith f.name ".csv" && f.type != "text/csv") = true
    · unfold validateAndSetFile
      rw [hc]
      simp
    · rw [hbranch (by simpa using hc)]
  · intro hcsv
    apply hbranch
    rcases hcsv with h | h <;> simp [h]

/-- Claim C5: for a file passing the extension, size and `walmart_id` checks
that is missing at least one required column, the warning toast lists exactly
the missing column names, comma-separated, in the order the columns are
checked: the listed names form a sublist of `requiredColumns` (preserving the
checking order) and contain a column if and only if it is required and absent
from the lowercased header. -/
theorem missing_columns_warning_exact (s : UploadState) (f : JsFile)
    (hcsv : strEndsWith f.name ".csv" = true ∨ f.type = "text/csv")
    (hsize : f.size ≤ maxFileSize)
    (hwal : strIncludes (headerOf f) "walmart_id" = true)
    (hmiss : missingOf f ≠ []) :
    (validateAndSetFile s f).1
        = [Toast.error ("CSV is missing required columns: "
            ++ String.intercalate ", " (missingOf f))]
      ∧ (missingOf f).Sublist requiredColumns
      ∧ ∀ col, col ∈ missingOf f ↔ col ∈ requiredColumns ∧ strIncludes (headerOf f) col = false := by
  refine ⟨?_, ?_, ?_⟩
  · rw [validateAndSetFile_accepted s f hcsv hsize]
    have hlen : 0 < (missingOf f).length := List.length_pos.mpr hmiss
    simp [hwal, hlen]
  · exact List.filter_sublist requiredColumns
  · intro col
    simp [missingOf, List.mem_filter]

/-- Claim C5 (witness): the theorem applied to a concrete file whose header
has `walmart_id` and `details_brand` but none of the category columns. -/
theorem missing_columns_warning_exact_witness :
    (strEndsWith "p.csv" ".csv" = true ∨ "text/csv" = "text/csv")
      ∧ (30 : Nat) ≤ maxFileSize
      ∧ strIncludes (headerOf ⟨"p.csv", "text/csv", 30, "walmart_id,details_Brand\n7,b"⟩) "walmart_id" = true
      ∧ missingOf ⟨"p.csv", "text/csv", 30, "walmart_id,details_Brand\n7,b"⟩ ≠ []
      ∧ ((validateAndSetFile initialUploadState ⟨"p.csv", "text/csv", 30, "walmart_id,details_Brand\n7,b"⟩).1
            = [Toast.error ("CSV is missing required columns: "
                ++ String.intercalate ", " (missingOf ⟨"p.csv", "text/csv", 30, "walmart_id,details_Brand\n7,b"⟩))]
          ∧ (missingOf ⟨"p.csv", "text/csv", 30, "walmart_id,details_Brand\n7,b"⟩).Sublist requiredColumns
          ∧ ∀ col, col ∈ missingOf ⟨"p.csv", "text/csv", 30, "walmart_id,details_Brand\n7,b"⟩
              ↔ col ∈ requiredColumns
                ∧ strIncludes (headerOf ⟨"p.csv", "text/csv", 30, "walmart_id,details_Brand\n7,b"⟩) col = false) :=
  ⟨by decide, by decide, by decide, by decide,
    missing_columns_warning_exact initialUploadState _ (by decide) (by decide) (by decide) (by decide)⟩

/-- Claim C6: a successful `/upload` response with `item_accuracy = 0.87`
and `submissionsRemaining = 3` renders the item accuracy as `87.00%`
(the value times one hundred, `toFixed(2)`, and a percent sign) and the
remaining submissions as `3`. -/
theorem result_display_87_and_3 :
    renderedItemAccuracy
        { item_accuracy := 87/100, brand_accuracy := none,
          timestamp := "2024-01-01T00:00:00Z", submissionsRemaining := 3 }
      = "87.00%"
    ∧ renderedSubmissionsRemaining
        { item_accuracy := 87/100, brand_accuracy := none,
          timestamp := "2024-01-01T00:00:00Z", submissionsRemaining := 3 }
      = "3" := by
  constructor
  · show toFixed2 ((87/100 : Rat) * 100) ++ "%" = "87.00%"
    have hacc : ((87/100 : Rat) * 100) = 87 := by norm_num
    have hround : jsRound ((87 : Rat) * 100) = 8700 := by norm_num [jsRound]
    rw [hacc]
    unfold toFixed2
    rw [if_neg (by norm_num)]
    unfold toFixed2abs
    rw [hround]
    decide
  · show toString (3 : Int) = "3"
    decide
/-- Claim C4 (witness): the amended theorem applied to a concrete oversize
CSV file. -/
theorem oversize_rejected_size_error_witness :
    (⟨"big.csv", "text/csv", 5 * 1024 * 1024 + 1, ""⟩ : JsFile).size > maxFileSize
      ∧ ((validateAndSetFile initialUploadState ⟨"big.csv", "text/csv", 5 * 1024 * 1024 + 1, ""⟩).2
            = initialUploadState
          ∧ ((strEndsWith "big.csv" ".csv" = true ∨ "text/csv" = "text/csv") →
              validateAndSetFile initialUploadState ⟨"big.csv", "text/csv", 5 * 1024 * 1024 + 1, ""⟩
                = ([Toast.error "File size exceeds 5MB limit"], initialUploadState))) :=
  ⟨by decide, oversize_rejected_size_error initialUploadState _ (by decide)⟩

/-- Claim C7: with a pending file, a failed upload with HTTP status 429
whose body carries a (nonempty) `nextReset` timestamp produces the
rate-limit toast containing the localized time derived from that timestamp;
with `nextReset` absent the toast says the limit resets at `tomorrow`. -/
theorem rate_limit_notification_reset_time (localize : String → String)
    (s : UploadState) (f : JsFile) (body : ErrorBody) (hf : s.file = some f) :
    (∀ ts, body.nextReset = some ts → ts ≠ "" →
        (handleUpload localize s (UploadResponse.failure 429 body)).toasts
          = [Toast.error ("Daily upload limit exceeded. Limit resets at " ++ localize ts)])
      ∧ (body.nextReset = none →
        (handleUpload localize s (UploadResponse.failure 429 body)).toasts
          = [Toast.error "Daily upload limit exceeded. Limit resets at tomorrow"]) := by
  constructor
  · intro ts hts hne
    simp [handleUpload, hf, hts, hne]
  · intro hts
    simp [handleUpload, hf, hts]

/-- Claim C7 (witness): the theorem applied to a concrete 429 response with
`nextReset = 2024-01-01T00:00:00Z` under a fixed localization. -/
theorem rate_limit_notification_reset_time_witness :
    (validateAndSetFile initialUploadState ⟨"good.csv", "text/csv", 4, "walmart_id\n1"⟩).2.file
        = some ⟨"good.csv", "text/csv", 4, "walmart_id\n1"⟩
      ∧ ((∀ ts, (⟨none, some "2024-01-01T00:00:00Z"⟩ : ErrorBody).nextReset = some ts → ts ≠ "" →
            (handleUpload id
                (validateAndSetFile initialUploadState ⟨"good.csv", "text/csv", 4, "walmart_id\n1"⟩).2
                (UploadResponse.failure 429 ⟨none, some "2024-01-01T00:00:00Z"⟩)).toasts
              = [Toast.error ("Daily upload limit exceeded. Limit resets at " ++ id ts)])
          ∧ ((⟨none, some "2024-01-01T00:00:00Z"⟩ : ErrorBody).nextReset = none →
            (handleUpload id
                (validateAndSetFile initialUploadState ⟨"good.csv", "text/csv", 4, "walmart_id\n1"⟩).2
                (UploadResponse.failure 429 ⟨none, some "2024-01-01T00:00:00Z"⟩)).toasts
              = [Toast.error "Daily upload limit exceeded. Limit resets at tomorrow"])) :=
  ⟨by decide,
    rate_limit_notification_reset_time id
      (validateAndSetFile initialUploadState ⟨"good.csv", "text/csv", 4, "walmart_id\n1"⟩).2
      ⟨"good.csv", "text/csv", 4, "walmart_id\n1"⟩ ⟨none, some "2024-01-01T00:00:00Z"⟩ (by decide)⟩

/-- Claim C8: with a pending file, a failed upload whose status is not 429
surfaces the server-provided (nonempty) `error` field verbatim when it is
present, and the generic fallback when it is absent; the file is POSTed
exactly once, so the failed upload is never retried automatically. -/
theorem non_429_error_message_no_retry (localize : String → String)
    (s : UploadState) (f : JsFile) (status : Nat) (body : ErrorBody)
    (hf : s.file = some f) (hstatus : status ≠ 429) :
    (∀ e, body.error = some e → e ≠ "" →
        (handleUpload localize s (UploadResponse.failure status body)).toasts = [Toast.error e])
      ∧ (body.error = none →
        (handleUpload localize s (UploadResponse.failure status body)).toasts
          = [Toast.error "Upload failed. Please check file format and try again."])
      ∧ (handleUpload localize s (UploadResponse.failure status body)).posted = [f] := by
  refine ⟨?_, ?_, ?_⟩
  · intro e he hne
    simp [handleUpload, hf, hstatus, he, hne]
  · intro he
    simp [handleUpload, hf, hstatus, he]
  · simp [handleUpload, hf, hstatus]

/-- Claim C8 (witness): the theorem applied to a concrete 400 response whose
body carries an `error` field. -/
theorem non_429_error_message_no_retry_witness :
    (validateAndSetFile initialUploadState ⟨"good.csv", "text/csv", 4, "walmart_id\n1"⟩).2.file
        = some ⟨"good.csv", "text/csv", 4, "walmart_id\n1"⟩
      ∧ (400 : Nat) ≠ 429
      ∧ ((∀ e, (⟨some "Invalid CSV", none⟩ : ErrorBody).error = some e → e ≠ "" →
            (handleUpload id
                (validateAndSetFile initialUploadState ⟨"good.csv", "text/csv", 4, "walmart_id\n1"⟩).2
                (UploadResponse.failure 400 ⟨some "Invalid CSV", none⟩)).toasts = [Toast.error e])
          ∧ ((⟨some "Invalid CSV", none⟩ : ErrorBody).error = none →
            (handleUpload id
                (validateAndSetFile initialUploadState ⟨"good.csv", "text/csv", 4, "walmart_id\n1"⟩).2
                (UploadResponse.failure 400 ⟨some "Invalid CSV", none⟩)).toasts
              = [Toast.error "Upload failed. Please check file format and try again."])
          ∧ (handleUpload id
              (validateAndSetFile initialUploadState ⟨"good.csv", "text/csv", 4, "walmart_id\n1"⟩).2
              (UploadResponse.failure 400 ⟨some "Invalid CSV", none⟩)).posted
            = [⟨"good.csv", "text/csv", 4, "walmart_id\n1"⟩]) :=
  ⟨by decide, by decide,
    non_429_error_message_no_retry id
      (validateAndSetFile initialUploadState ⟨"good.csv", "text/csv", 4, "walmart_id\n1"⟩).2
      ⟨"good.csv", "text/csv", 4, "walmart_id\n1"⟩ 400 ⟨some "Invalid CSV", none⟩
      (by decide) (by decide)⟩

theorem lRun_timer_none_of_unmounted (evs : List LEvent) :
    (lRun lInit evs).mounted = false → (lRun lInit evs).timer = none := by
  suffices h : ∀ (s : LState), (s.mounted = false → s.timer = none) →
      ((lRun s evs).mounted = false → (lRun s evs).timer = none) by
    exact h lInit (fun _ => rfl)
  induction evs with
  | nil => intro s hs; exact hs
  | cons e t ih =>
    intro s hs
    have hstep : (lStep s e).mounted = false → (lStep s e).timer = none := by
      cases e with
      | mount => by_cases hm : s.mounted <;> simp [lStep, hm]
      | unmount => by_cases hm : s.mounted <;> simp [lStep, hm, hs]
      | tick id =>
        cases ht : s.timer with
        | none => simp [lStep, ht, hs]
        | some tid =>
          intro hm
          have hmount : s.mounted = false := by
            by_cases hid : id = tid <;> simpa [lStep, ht, hid] using hm
          exact absurd (ht ▸ hs hmount) (Option.some_ne_none tid)
    exact ih (lStep s e) hstep

theorem lRun_ticks_fixed (s : LState) (h : s.timer = none) (post : List LEvent)
    (hp : ∀ e ∈ post, isTick e = true) : lRun s post = s := by
  induction post with
  | nil => rfl
  | cons e t ih =>
    have he : isTick e = true := hp e (List.mem_cons_self e t)
    have hstep : lStep s e = s := by
      cases e with
      | mount => simp [isTick] at he
      | unmount => simp [isTick] at he
      | tick id => simp [lStep, h]
    show lRun (lStep s e) t = s
    rw [hstep]
    exact ih fun x hx => hp x (List.mem_cons_of_mem e hx)

/-- Claim C9: once the Leaderboard component has been unmounted (and not
remounted), the interval registered on mount has been cancelled by the
cleanup, so any further interval ticks fire no leaderboard fetch: the fetch
count after any sequence of ticks equals the fetch count at unmount time. -/
theorem no_refresh_after_unmount (evs post : List LEvent)
    (hpost : ∀ e ∈ post, isTick e = true)
    (hunmounted : (lRun lInit evs).mounted = false) :
    (lRun (lRun lInit evs) post).fetches = (lRun lInit evs).fetches := by
  rw [lRun_ticks_fixed (lRun lInit evs) (lRun_timer_none_of_unmounted evs hunmounted) post hpost]

/-- Claim C9 (witness): a mount, one interval tick and an unmount, followed
by two more ticks of the cancelled interval, fire no further fetch. -/
theorem no_refresh_after_unmount_witness :
    (∀ e ∈ [LEvent.tick 0, LEvent.tick 1], isTick e = true)
      ∧ (lRun lInit [LEvent.mount, LEvent.tick 0, LEvent.unmount]).mounted = false
      ∧ (lRun (lRun lInit [LEvent.mount, LEvent.tick 0, LEvent.unmount])
            [LEvent.tick 0, LEvent.tick 1]).fetches
        = (lRun lInit [LEvent.mount, LEvent.tick 0, LEvent.unmount]).fetches :=
  ⟨by decide, by decide,
    no_refresh_after_unmount [LEvent.mount, LEvent.tick 0, LEvent.unmount]
      [LEvent.tick 0, LEvent.tick 1] (by decide) (by decide)⟩

theorem jsRound_nonneg (q : Rat) (h : 0 ≤ q) : 0 ≤ jsRound q := by
  unfold jsRound
  exact Int.le_floor.mpr (by push_cast; linarith)

theorem jsRound_le_hundred (q : Rat) (h : q ≤ 100) : jsRound q ≤ 100 := by
  unfold jsRound
  have hlt : ⌊q + 1/2⌋ < 101 := Int.floor_lt.mpr (by push_cast; linarith)
  omega

theorem stepProgress_bounds (p : Int) (ev : ProgressEvent)
    (hp0 : 0 ≤ p) (hp1 : p ≤ 100) (hev : okEvent ev = true) :
    0 ≤ stepProgress p ev ∧ stepProgress p ev ≤ 100 := by
  cases ht : ev.total with
  | none => simp [stepProgress, ht, hp0, hp1]
  | some t =>
    by_cases hz : t ≠ 0
    · have hload : ev.loaded ≤ t := by simpa [okEvent, ht] using hev
      have htpos : (0 : Rat) < t := by
        exact_mod_cast Nat.pos_of_ne_zero hz
      have hq0 : (0 : Rat) ≤ (ev.loaded * 100 : Rat) / (t : Rat) := by positivity
      have hq1 : ((ev.loaded * 100 : Rat)) / (t : Rat) ≤ 100 := by
        rw [div_le_iff₀ htpos]
        have : (ev.loaded : Rat) ≤ (t : Rat) := by exact_mod_cast hload
        nlinarith
      constructor
      · simpa [stepProgress, ht, hz] using jsRound_nonneg _ hq0
      · simpa [stepProgress, ht, hz] using jsRound_le_hundred _ hq1
    · simp [stepProgress, ht, hz, hp0, hp1]

theorem foldl_stepProgress_bounds (evs : List ProgressEvent) (p : Int)
    (hp0 : 0 ≤ p) (hp1 : p ≤ 100) (hev : ∀ ev ∈ evs, okEvent ev = true) :
    0 ≤ evs.foldl stepProgress p ∧ evs.foldl stepProgress p ≤ 100 := by
  induction evs generalizing p with
  | nil => exact ⟨hp0, hp1⟩
  | cons e t ih =>
    have he : okEvent e = true := hev e (List.mem_cons_self e t)
    have hstep := stepProgress_bounds p e hp0 hp1 he
    exact ih (stepProgress p e) hstep.1 hstep.2
      fun x hx => hev x (List.mem_cons_of_mem e hx)

/-- Claim C10: starting from the `setUploadProgress(0)` performed on submit,
and given that every progress event with a defined total satisfies
`loaded <= total`, the displayed progress value (an integer, as the value of
`Math.round`) always stays between 0 and 100 inclusive. -/
theorem progress_within_bounds (evs : List ProgressEvent)
    (hev : ∀ ev ∈ evs, okEvent ev = true) :
    0 ≤ runProgress evs ∧ runProgress evs ≤ 100 := by
  unfold runProgress
  exact foldl_stepProgress_bounds evs 0 (by omega) (by omega) hev

/-- Claim C10 (witness): the theorem applied to a concrete event sequence,
including an event with undefined total and one with a zero total. -/
theorem progress_within_bounds_witness :
    (∀ ev ∈ [(⟨0, some 200⟩ : ProgressEvent), ⟨50, some 200⟩, ⟨70, none⟩, ⟨0, some 0⟩, ⟨200, some 200⟩],
        okEvent ev = true)
      ∧ 0 ≤ runProgress [(⟨0, some 200⟩ : ProgressEvent), ⟨50, some 200⟩, ⟨70, none⟩, ⟨0, some 0⟩, ⟨200, some 200⟩]
      ∧ runProgress [(⟨0, some 200⟩ : ProgressEvent), ⟨50, some 200⟩, ⟨70, none⟩, ⟨0, some 0⟩, ⟨200, some 200⟩] ≤ 100 :=
  ⟨by decide,
    (progress_within_bounds _ (by decide)).1,
    (progress_within_bounds _ (by decide)).2⟩
